import Mathlib

/-!
# ndx-test — formal model of the evaluation core

A shallow embedding of the `ndx-test` evaluation library (TypeScript) in
Lean 4.  Sources embedded here:

* `src/types.ts`                  — data model (results, config, report)
* `src/evaluate.ts`               — orchestration engine (`runEvaluators`, `evaluate`)
* `src/evaluators/structural/max-length.ts`, `min-length.ts`, `required-fields.ts`,
  `json-schema.ts`               — structural evaluators
* `src/evaluators/guardrails/on-topic.ts`, `toxicity.ts`,
  `no-personal-data.ts`, `no-hallucinated-urls.ts` — guardrail evaluators

JavaScript numbers are modelled as rationals (`ℚ`); all arithmetic in the
library stays well inside the exactly-representable range of doubles at the
inputs considered, except where noted in comments.  Promises are collapsed:
an async evaluator either returns a result or throws, which we model as
`Except String EvaluationResult` (the thrown value reduced to its message).
The wall clock (`new Date().toISOString()`) is not modelled; the report's
`timestamp` is a fixed placeholder, and no claim concerns it.
-/

/-- Type `Severity` from `src/types.ts`: `'error' | 'warning' | 'info'`. -/
inductive Severity where
  | error
  | warning
  | info
deriving DecidableEq, Repr

/-- Type `EvaluationCategory` from `src/types.ts`:
`'semantic' | 'guardrail' | 'structural' | 'consistency'`. -/
inductive EvaluationCategory where
  | semantic
  | guardrail
  | structural
  | consistency
deriving DecidableEq, Repr

/-- JSON values, as produced by the platform `JSON.parse`
(needed by `required-fields.ts` and `json-schema.ts`).  Objects keep their
textual key order; `JSON.parse` keeps the last of duplicate keys but key
membership — the only thing the evaluators inspect — is unaffected. -/
inductive Json where
  | null
  | boolVal (b : Bool)
  | num (q : ℚ)
  | str (s : String)
  | arr (elems : List Json)
  | obj (fields : List (String × Json))

/-- Values of the open diagnostic `metadata` map of a result
(`metadata?: Record<string, unknown>` in `src/types.ts`).  One constructor
per shape the built-in evaluators actually store. -/
inductive MetaVal where
  | num (q : ℚ)
  | str (s : String)
  | boolVal (b : Bool)
  | strList (xs : List String)
  | pairList (xs : List (String × String))
  | detList (xs : List (String × Nat))
  | jsonVal (j : Json)

/-- Type `EvaluationResult` from `src/types.ts`. -/
structure EvaluationResult where
  name : String
  pass : Bool
  score : ℚ
  threshold : ℚ
  category : EvaluationCategory
  severity : Severity
  details : String
  metadata : List (String × MetaVal) := []

instance : Inhabited EvaluationResult :=
  ⟨{ name := "", pass := false, score := 0, threshold := 0,
     category := .structural, severity := .error, details := "" }⟩

/-- Type `EvaluationContext` from `src/types.ts`. -/
structure EvaluationContext where
  prompt : Option String := none
  referenceResponse : Option String := none
  retrievedDocuments : Option (List String) := none
  history : Option (List String) := none

/-- An evaluator: `(response, context?) => Promise<EvaluationResult>`.
The JS function's `.name` is carried alongside (the orchestrator reads it
when synthesizing runtime-error results; arrow functions have name `""`).
A rejected promise / thrown error is an `Except.error` carrying the message. -/
structure Evaluator where
  name : String := ""
  run : String → Option EvaluationContext → Except String EvaluationResult

/-- Type `EvaluationConfig` from `src/types.ts`; `stopOnFirstFailure` is optional
in TS and destructured with default `false` in `evaluate.ts`, which a plain
`Bool` field with default `false` captures. -/
structure EvaluationConfig where
  testName : String
  evaluators : List Evaluator
  context : Option EvaluationContext := none
  stopOnFirstFailure : Bool := false

/-- Per-severity tallies: `bySeverity: Record<Severity, number>`. -/
structure SeverityCounts where
  error : Nat
  warning : Nat
  info : Nat
deriving DecidableEq, Repr

/-- The `summary` component of `EvaluationReport` (`src/types.ts`). -/
structure ReportSummary where
  total : Nat
  passed : Nat
  failed : Nat
  bySeverity : SeverityCounts

/-- Type `EvaluationReport` from `src/types.ts`. -/
structure EvaluationReport where
  testName : String
  timestamp : String
  overallPass : Bool
  overallScore : ℚ
  results : List EvaluationResult
  summary : ReportSummary

/-! ## Orchestration engine — `src/evaluate.ts` -/

/-- The synthetic result `runEvaluators` pushes when an evaluator throws
(`catch` branch in `src/evaluate.ts`).  `evaluatorName` is
`evaluator.name || 'Anonymous Evaluator'` (the empty string is falsy in JS);
`details` is the thrown error's message. -/
def runtimeErrorResult (evaluatorName msg : String) : EvaluationResult :=
  { name := "Runtime Error: " ++
      (if evaluatorName = "" then "Anonymous Evaluator" else evaluatorName)
    pass := false
    score := 0
    threshold := 0
    category := .structural
    severity := .error
    details := msg }

/-- The loop body of `runEvaluators` (`src/evaluate.ts`), recursing over the
evaluator list.  On success the result is appended and — when
`stopOnFirstFailure` is enabled — the loop breaks after an error-severity
failure; on a thrown error the synthetic result is appended and the loop
breaks whenever `stopOnFirstFailure` is enabled. -/
def runEvaluatorsGo (response : String) (context : Option EvaluationContext)
    (stopOnFirstFailure : Bool) : List Evaluator → List EvaluationResult
  | [] => []
  | evaluator :: rest =>
    match evaluator.run response context with
    | .ok result =>
      if stopOnFirstFailure && !result.pass && result.severity == Severity.error then
        [result]
      else
        result :: runEvaluatorsGo response context stopOnFirstFailure rest
    | .error err =>
      let r := runtimeErrorResult evaluator.name err
      if stopOnFirstFailure then [r]
      else r :: runEvaluatorsGo response context stopOnFirstFailure rest

/-- Function `runEvaluators` from `src/evaluate.ts`. -/
def runEvaluators (response : String) (config : EvaluationConfig) :
    List EvaluationResult :=
  runEvaluatorsGo response config.context config.stopOnFirstFailure
    config.evaluators

/-- Accumulator of the `results.reduce` call in `evaluate`
(`src/evaluate.ts`), field for field. -/
structure SummaryAcc where
  total : Nat
  passed : Nat
  scoreSum : ℚ
  hasCriticalFailure : Bool
  bySeverity : SeverityCounts

/-- The update `acc.bySeverity[r.severity] += 1`. -/
def SeverityCounts.bump (c : SeverityCounts) : Severity → SeverityCounts
  | .error => { c with error := c.error + 1 }
  | .warning => { c with warning := c.warning + 1 }
  | .info => { c with info := c.info + 1 }

/-- One step of the `results.reduce` in `evaluate` (`src/evaluate.ts`). -/
def summaryStep (acc : SummaryAcc) (r : EvaluationResult) : SummaryAcc :=
  { total := acc.total + 1
    passed := if r.pass then acc.passed + 1 else acc.passed
    scoreSum := acc.scoreSum + r.score
    hasCriticalFailure :=
      if !r.pass && r.severity == Severity.error then true
      else acc.hasCriticalFailure
    bySeverity := acc.bySeverity.bump r.severity }

/-- Initial accumulator of the reduce. -/
def summaryInit : SummaryAcc :=
  { total := 0, passed := 0, scoreSum := 0, hasCriticalFailure := false
    bySeverity := { error := 0, warning := 0, info := 0 } }

/-- Function `evaluate` from `src/evaluate.ts`.  `timestamp` is
`new Date().toISOString()` in the source; the wall clock is not modelled and
the field is a fixed placeholder (no claim concerns it). -/
def evaluate (response : String) (config : EvaluationConfig) :
    EvaluationReport :=
  let results := runEvaluators response config
  let summary := results.foldl summaryStep summaryInit
  { testName := config.testName
    overallScore := if summary.total > 0 then summary.scoreSum / summary.total else 0
    timestamp := ""
    overallPass := !summary.hasCriticalFailure
    results := results
    summary :=
      { total := summary.total
        passed := summary.passed
        failed := summary.total - summary.passed
        bySeverity := summary.bySeverity } }

/-! ## Number formatting helpers

JS renders numbers in template literals (`details` strings) via
`Number.prototype.toString` and `Number.prototype.toFixed(2)`.  Exact float
formatting is not replicated; integers print identically, and the
two-decimal rounding below agrees with `toFixed` on the exactly
representable values the evaluators produce. -/

/-- Approximation of JS number-to-string for the values appearing in
`details` template literals (integral values print as integers). -/
def numToString (q : ℚ) : String :=
  if q.den = 1 then toString q.num else toString q

/-- Approximation of `Number.prototype.toFixed(2)`: round to two decimals,
half away from zero. -/
def toFixed2 (q : ℚ) : String :=
  let cents : Int := if q ≥ 0 then ⌊q * 100 + 1/2⌋ else -⌊-q * 100 + 1/2⌋
  let sign := if cents < 0 then "-" else ""
  let a := cents.natAbs
  sign ++ toString (a / 100) ++ "." ++
    (if a % 100 < 10 then "0" else "") ++ toString (a % 100)

/-! ## Structural evaluators -/

/-- Options of `maxLength` (`src/evaluators/structural/max-length.ts`). -/
structure MaxLengthOptions where
  severity : Severity := .error

/-- Factory `maxLength` from `src/evaluators/structural/max-length.ts`.
`response.length` counts UTF-16 code units in JS; `String.length` counts
scalar values, which agree on the inputs considered (no astral characters). -/
def maxLength (limit : ℚ) (options : MaxLengthOptions := {}) : Evaluator where
  run := fun response _ => .ok <|
    let length : ℚ := response.length
    let score := if length ≤ limit then 1 else max 0 (1 - (length - limit) / limit)
    { name := "maxLength"
      pass := length ≤ limit
      score := score
      threshold := 1
      category := .structural
      severity := options.severity
      details :=
        if length ≤ limit then
          "Response length " ++ numToString length ++ " is within limit of " ++
            numToString limit
        else
          "Response length " ++ numToString length ++ " exceeds limit of " ++
            numToString limit ++ " by " ++ numToString (length - limit) ++
            " characters"
      metadata := [("length", .num length), ("limit", .num limit)] }

/-- Options of `minLength` (`src/evaluators/structural/min-length.ts`). -/
structure MinLengthOptions where
  severity : Severity := .error

/-- Factory `minLength` from `src/evaluators/structural/min-length.ts`. -/
def minLength (minimum : ℚ) (options : MinLengthOptions := {}) : Evaluator where
  run := fun response _ => .ok <|
    let length : ℚ := response.length
    let score := if minimum > 0 then min 1 (length / minimum) else 1
    { name := "minLength"
      pass := length ≥ minimum
      score := score
      threshold := 1
      category := .structural
      severity := options.severity
      details :=
        if length ≥ minimum then
          "Response length " ++ numToString length ++ " meets minimum of " ++
            numToString minimum
        else
          "Response length " ++ numToString length ++ " is below minimum of " ++
            numToString minimum ++ " by " ++ numToString (minimum - length) ++
            " characters"
      metadata := [("length", .num length), ("minimum", .num minimum)] }

/-! ## JSON parsing — platform `JSON.parse`

`required-fields.ts` and `json-schema.ts` call the platform's `JSON.parse`
and catch its exception.  The recursive-descent parser below implements the
JSON grammar (ECMA-404, as `JSON.parse` accepts it): the four JSON
whitespace characters, the `null/true/false` literals, strings with escape
sequences, numbers with optional fraction/exponent (no leading zeros, no
leading `+`), arrays and objects.  Recursion is by fuel; the fuel supplied
at top level exceeds the maximal recursion depth for the input, so running
out of fuel never rejects a grammatically valid input.  Lone
surrogate `\uXXXX` escapes (invalid scalar values) map to `Char.ofNat`'s
default; no evaluator inspects string contents, only object keys, and the
claims' inputs contain no surrogates. -/

/-- JSON whitespace: space, tab, line feed, carriage return. -/
def isJsonWs (c : Char) : Bool :=
  c = ' ' || c = '\t' || c = '\n' || c = '\r'

/-- Skip leading JSON whitespace. -/
def skipWs : List Char → List Char
  | c :: rest => if isJsonWs c then skipWs rest else c :: rest
  | [] => []

/-- Hexadecimal digit value. -/
def hexVal (c : Char) : Option Nat :=
  if '0' ≤ c ∧ c ≤ '9' then some (c.toNat - '0'.toNat)
  else if 'a' ≤ c ∧ c ≤ 'f' then some (c.toNat - 'a'.toNat + 10)
  else if 'A' ≤ c ∧ c ≤ 'F' then some (c.toNat - 'A'.toNat + 10)
  else none

/-- Body of a JSON string after the opening quote: the decoded characters
and the input remaining after the closing quote. -/
def parseStringChars : List Char → Option (List Char × List Char)
  | [] => none
  | '"' :: rest => some ([], rest)
  | '\\' :: esc =>
    match esc with
    | '"' :: r => (parseStringChars r).map (fun p => ('"' :: p.1, p.2))
    | '\\' :: r => (parseStringChars r).map (fun p => ('\\' :: p.1, p.2))
    | '/' :: r => (parseStringChars r).map (fun p => ('/' :: p.1, p.2))
    | 'b' :: r => (parseStringChars r).map (fun p => ('\x08' :: p.1, p.2))
    | 'f' :: r => (parseStringChars r).map (fun p => ('\x0c' :: p.1, p.2))
    | 'n' :: r => (parseStringChars r).map (fun p => ('\n' :: p.1, p.2))
    | 'r' :: r => (parseStringChars r).map (fun p => ('\r' :: p.1, p.2))
    | 't' :: r => (parseStringChars r).map (fun p => ('\t' :: p.1, p.2))
    | 'u' :: a :: b :: c :: d :: r =>
      match hexVal a, hexVal b, hexVal c, hexVal d with
      | some ha, some hb, some hc, some hd =>
        let code := ((ha * 16 + hb) * 16 + hc) * 16 + hd
        (parseStringChars r).map (fun p => (Char.ofNat code :: p.1, p.2))
      | _, _, _, _ => none
    | _ => none
  | c :: rest =>
    if c.toNat < 32 then none
    else (parseStringChars rest).map (fun p => (c :: p.1, p.2))

/-- Maximal run of decimal digits. -/
def takeDigits : List Char → List Char × List Char
  | c :: rest =>
    if '0' ≤ c ∧ c ≤ '9' then
      let (ds, r) := takeDigits rest
      (c :: ds, r)
    else ([], c :: rest)
  | [] => ([], [])

/-- Numeric value of a digit run. -/
def digitsToNat (ds : List Char) : Nat :=
  ds.foldl (fun acc c => acc * 10 + (c.toNat - '0'.toNat)) 0

/-- A JSON number: `-?(0|[1-9][0-9]*)(\.[0-9]+)?([eE][+-]?[0-9]+)?`. -/
def parseNumberVal (s : List Char) : Option (ℚ × List Char) :=
  let (neg, s1) := match s with
    | '-' :: r => (true, r)
    | _ => (false, s)
  let intPart : Option (List Char × List Char) := match s1 with
    | '0' :: r => some (['0'], r)
    | c :: r =>
      if '1' ≤ c ∧ c ≤ '9' then
        let (ds, r2) := takeDigits r
        some (c :: ds, r2)
      else none
    | [] => none
  match intPart with
  | none => none
  | some (ids, s2) =>
    let fracPart : Option (List Char × List Char) := match s2 with
      | '.' :: r =>
        match takeDigits r with
        | ([], _) => none
        | (ds, r2) => some (ds, r2)
      | _ => some ([], s2)
    match fracPart with
    | none => none
    | some (fds, s3) =>
      let expPart : Option (Bool × List Char × List Char) := match s3 with
        | 'e' :: r | 'E' :: r =>
          let (eneg, r1) := match r with
            | '-' :: r2 => (true, r2)
            | '+' :: r2 => (false, r2)
            | _ => (false, r)
          match takeDigits r1 with
          | ([], _) => none
          | (ds, r2) => some (eneg, ds, r2)
        | _ => some (false, [], s3)
      match expPart with
      | none => none
      | some (eneg, eds, s4) =>
        let mantissa : ℚ :=
          (digitsToNat ids : ℚ) + (digitsToNat fds : ℚ) / ((10 : ℚ) ^ fds.length)
        let expo : ℤ := if eneg then -(digitsToNat eds : ℤ) else (digitsToNat eds : ℤ)
        let value := mantissa * (10 : ℚ) ^ expo
        some (if neg then -value else value, s4)

mutual

/-- One JSON value, by recursive descent (fuel-bounded). -/
def parseValue : Nat → List Char → Option (Json × List Char)
  | 0, _ => none
  | fuel + 1, s =>
    match skipWs s with
    | 'n' :: 'u' :: 'l' :: 'l' :: rest => some (.null, rest)
    | 't' :: 'r' :: 'u' :: 'e' :: rest => some (.boolVal true, rest)
    | 'f' :: 'a' :: 'l' :: 's' :: 'e' :: rest => some (.boolVal false, rest)
    | '"' :: rest =>
      (parseStringChars rest).map (fun p => (.str (String.mk p.1), p.2))
    | '[' :: rest =>
      (match skipWs rest with
       | ']' :: r => some (.arr [], r)
       | s' => (parseArrayItems fuel s').map (fun p => (.arr p.1, p.2)))
    | '{' :: rest =>
      (match skipWs rest with
       | '}' :: r => some (.obj [], r)
       | s' => (parseObjectItems fuel s').map (fun p => (.obj p.1, p.2)))
    | s' => (parseNumberVal s').map (fun p => (.num p.1, p.2))

/-- Comma-separated array elements up to the closing bracket. -/
def parseArrayItems : Nat → List Char → Option (List Json × List Char)
  | 0, _ => none
  | fuel + 1, s =>
    match parseValue fuel s with
    | none => none
    | some (v, r) =>
      match skipWs r with
      | ',' :: r2 => (parseArrayItems fuel r2).map (fun p => (v :: p.1, p.2))
      | ']' :: r2 => some ([v], r2)
      | _ => none

/-- Comma-separated `"key": value` members up to the closing brace. -/
def parseObjectItems : Nat → List Char → Option (List (String × Json) × List Char)
  | 0, _ => none
  | fuel + 1, s =>
    match skipWs s with
    | '"' :: rest =>
      match parseStringChars rest with
      | none => none
      | some (key, r) =>
        match skipWs r with
        | ':' :: r2 =>
          match parseValue fuel r2 with
          | none => none
          | some (v, r3) =>
            match skipWs r3 with
            | ',' :: r4 =>
              (parseObjectItems fuel r4).map
                (fun p => ((String.mk key, v) :: p.1, p.2))
            | '}' :: r4 => some ([(String.mk key, v)], r4)
            | _ => none
        | _ => none
    | _ => none

end

/-- Top-level `JSON.parse`: parse the whole input, allowing only trailing whitespace;
`none` models the thrown `SyntaxError`. -/
def Json.parse (input : String) : Option Json :=
  let cs := input.toList
  match parseValue (2 * cs.length + 8) cs with
  | some (v, rest) => if skipWs rest = [] then some v else none
  | none => none

/-- Test `key in parsed` on the object produced by `JSON.parse`: key membership. -/
def Json.objHasKey (fields : List (String × Json)) (key : String) : Bool :=
  fields.any (fun kv => kv.1 = key)

/-- Options of `requiredFields`
(`src/evaluators/structural/required-fields.ts`). -/
structure RequiredFieldsOptions where
  severity : Severity := .error

/-- Factory `requiredFields` from `src/evaluators/structural/required-fields.ts`:
parse the response as JSON, fail fast on a parse error or a non-object
(`typeof parsed !== 'object' || parsed === null || Array.isArray(parsed)`),
otherwise score the ratio of present fields (key membership, `field in
parsed`) to required fields. -/
def requiredFields (fields : List String)
    (options : RequiredFieldsOptions := {}) : Evaluator where
  run := fun response _ => .ok <|
    match Json.parse response with
    | none =>
      { name := "requiredFields"
        pass := false
        score := 0
        threshold := 1
        category := .structural
        severity := options.severity
        details := "Response is not valid JSON"
        metadata := [("requiredFields", .strList fields), ("foundFields", .strList [])] }
    | some parsed =>
      match parsed with
      | .obj kvs =>
        let found := fields.filter (fun field => Json.objHasKey kvs field)
        let missing := fields.filter (fun field => ¬ Json.objHasKey kvs field)
        let score : ℚ :=
          if fields.length > 0 then (found.length : ℚ) / (fields.length : ℚ) else 1
        { name := "requiredFields"
          pass := missing.length = 0
          score := score
          threshold := 1
          category := .structural
          severity := options.severity
          details :=
            if missing.length = 0 then
              "All " ++ toString fields.length ++ " required fields present"
            else
              "Missing fields: " ++ String.intercalate ", " missing
          metadata := [("requiredFields", .strList fields),
                       ("foundFields", .strList found),
                       ("missingFields", .strList missing)] }
      | _ =>
        { name := "requiredFields"
          pass := false
          score := 0
          threshold := 1
          category := .structural
          severity := options.severity
          details := "Response is not a JSON object"
          metadata := [("requiredFields", .strList fields), ("foundFields", .strList [])] }

/-! ## `jsonSchema` — `src/evaluators/structural/json-schema.ts`

The evaluator validates the parsed JSON against a caller-supplied Zod
schema.  Zod is an external library; a schema enters the model as its
observable behaviour — a function from the parsed value to a success/issue
outcome (`schema.safeParse`). -/

/-- One Zod issue: a path and a message (`issue.path`, `issue.message`). -/
structure ZodIssue where
  path : List String
  message : String

/-- Outcome of `schema.safeParse(parsed)`. -/
inductive ZodOutcome where
  | success (data : Json)
  | failure (issues : List ZodIssue)

/-- Options of `jsonSchema`. -/
structure JsonSchemaOptions where
  severity : Severity := .error

/-- Factory `jsonSchema` from `src/evaluators/structural/json-schema.ts`; `schema`
is the Zod schema's `safeParse` behaviour. -/
def jsonSchema (schema : Json → ZodOutcome)
    (options : JsonSchemaOptions := {}) : Evaluator where
  run := fun response _ => .ok <|
    match Json.parse response with
    | none =>
      { name := "jsonSchema"
        pass := false
        score := 0
        threshold := 1
        category := .structural
        severity := options.severity
        details := "Response is not valid JSON"
        metadata := [("errors", .strList ["Failed to parse JSON"])] }
    | some parsed =>
      match schema parsed with
      | .success data =>
        { name := "jsonSchema"
          pass := true
          score := 1
          threshold := 1
          category := .structural
          severity := options.severity
          details := "Response conforms to the expected schema"
          metadata := [("validatedData", .jsonVal data)] }
      | .failure issues =>
        let errors := issues.map
          (fun issue => String.intercalate "." issue.path ++ ": " ++ issue.message)
        { name := "jsonSchema"
          pass := false
          score := 0
          threshold := 1
          category := .structural
          severity := options.severity
          details := "Schema validation failed: " ++ String.intercalate "; " errors
          metadata := [("errors", .strList errors),
                       ("issueCount", .num (issues.length : ℚ))] }

/-! ## Guardrail evaluators -/

/-- JS regex `\w`: `[A-Za-z0-9_]`. -/
def isWordChar (c : Char) : Bool :=
  ('a' ≤ c ∧ c ≤ 'z') || ('A' ≤ c ∧ c ≤ 'Z') || ('0' ≤ c ∧ c ≤ '9') || c = '_'

/-- JS regex `\s`: ASCII whitespace plus the Unicode space separators,
line/paragraph separators, NBSP, narrow NBSP, and BOM. -/
def isJsSpace (c : Char) : Bool :=
  let n := c.toNat
  (9 ≤ n ∧ n ≤ 13) || n = 32 || n = 160 || n = 0x1680 ||
    (0x2000 ≤ n ∧ n ≤ 0x200a) || n = 0x2028 || n = 0x2029 || n = 0x202f ||
    n = 0x205f || n = 0x3000 || n = 0xfeff

/-- Group a character list into maximal runs separated by `\s` characters
(the effect of `.split(/\s+/)` once empty edge tokens are discarded — they
are anyway dropped by the length filter in `tokenize`). -/
def wordsBySpace : List Char → List Char → List (List Char)
  | [], acc => if acc.isEmpty then [] else [acc.reverse]
  | c :: rest, acc =>
    if isJsSpace c then
      if acc.isEmpty then wordsBySpace rest []
      else acc.reverse :: wordsBySpace rest []
    else wordsBySpace rest (c :: acc)

/-- Function `tokenize` from `src/evaluators/guardrails/on-topic.ts`:
`text.toLowerCase().replace(/[^\w\s]/g, '').split(/\s+/)` filtered to
tokens longer than 2 characters. -/
def tokenize (text : String) : List String :=
  let cleaned := (text.toList.map Char.toLower).filter
    (fun c => isWordChar c || isJsSpace c)
  ((wordsBySpace cleaned []).map String.mk).filter (fun w => w.length > 2)

/-- First-occurrence deduplication: `[...new Set(xs)]`. -/
def dedupKeepFirst : List String → List String → List String
  | [], _ => []
  | x :: xs, seen =>
    if seen.contains x then dedupKeepFirst xs seen
    else x :: dedupKeepFirst xs (x :: seen)

/-- Function `keywordScore` from `src/evaluators/guardrails/on-topic.ts`: the
fraction of distinct topic tokens present among the response tokens. -/
def keywordScore (response topic : String) : ℚ :=
  let topicTokens := dedupKeepFirst (tokenize topic) []
  if topicTokens.length = 0 then 1
  else
    let responseTokens := tokenize response
    let matchedCount :=
      (topicTokens.filter (fun token => responseTokens.contains token)).length
    (matchedCount : ℚ) / (topicTokens.length : ℚ)

/-- Options of `onTopic` (`src/evaluators/guardrails/on-topic.ts`).  The
optional custom scorer may throw (modelled by `Except`). -/
structure OnTopicOptions where
  severity : Severity := .warning
  threshold : ℚ := 3/10
  scorer : Option (String → String → Except String ℚ) := none

/-- Factory `onTopic` from `src/evaluators/guardrails/on-topic.ts`. -/
def onTopic (topic : String) (options : OnTopicOptions := {}) : Evaluator where
  run := fun response _ => do
    let score ← match options.scorer with
      | some f => f response topic
      | none => pure (keywordScore response topic)
    let clampedScore := max 0 (min 1 score)
    pure
      { name := "onTopic"
        pass := clampedScore ≥ options.threshold
        score := clampedScore
        threshold := options.threshold
        category := .guardrail
        severity := options.severity
        details :=
          if clampedScore ≥ options.threshold then
            "Response is on-topic (score: " ++ toFixed2 clampedScore ++
              ", topic: \"" ++ topic ++ "\")"
          else
            "Response appears off-topic (score: " ++ toFixed2 clampedScore ++
              ", required: " ++ numToString options.threshold ++
              ", topic: \"" ++ topic ++ "\")"
        metadata := [("topic", .str topic),
                     ("scoringMethod",
                      .str (if options.scorer.isSome then "custom" else "keyword"))] }

/-! ## `toxicity` — `src/evaluators/guardrails/toxicity.ts`

`TOXICITY_SIGNALS` is a fixed list of case-insensitive global regexes of
two shapes: `\b(w1|w2|…)\b` and `\b(w1|…)\s+(v1|…)\b`.  The matcher below
implements exactly these shapes: a word boundary is a transition between a
`\w` character and a non-`\w` character (or the string edge); alternatives
are tried in order (they are pairwise prefix-free literals, so order cannot
change the outcome); `\s+` is a maximal non-empty whitespace run (every
alternative starts with a letter, so regex backtracking over a shorter run
can never succeed); matches are counted left to right, non-overlapping,
resuming after each match — the semantics of `String.prototype.match` with
the `g` flag. -/

/-- Shape of one toxicity signal regex. -/
inductive ToxPattern where
  | word (alts : List String)
  | wordPair (alts1 alts2 : List String)

/-- Case-insensitive literal prefix match; returns the remaining input. -/
def startsWithCI : List Char → List Char → Option (List Char)
  | [], cs => some cs
  | _ :: _, [] => none
  | w :: ws, c :: cs =>
    if c.toLower = w.toLower then startsWithCI ws cs else none

/-- Whether `\b` holds before the current position. -/
def boundaryBefore : Option Char → Bool
  | none => true
  | some c => !isWordChar c

/-- Whether `\b` holds after a match ending here. -/
def boundaryAfter : List Char → Bool
  | [] => true
  | c :: _ => !isWordChar c

/-- Length of a maximal leading `\s` run. -/
def leadingSpaceCount : List Char → Nat
  | c :: rest => if isJsSpace c then leadingSpaceCount rest + 1 else 0
  | [] => 0

/-- Try one alternative of a single-group signal at the current position. -/
def matchWordAlt (cs : List Char) (w : String) : Option Nat :=
  match startsWithCI w.toList cs with
  | some rest => if boundaryAfter rest then some w.length else none
  | none => none

/-- Try one first-group alternative of a two-group signal, then `\s+`, then
the second group with its trailing boundary. -/
def matchPairAlt (alts2 : List String) (cs : List Char) (w1 : String) :
    Option Nat :=
  match startsWithCI w1.toList cs with
  | none => none
  | some r1 =>
    let nsp := leadingSpaceCount r1
    if nsp = 0 then none
    else
      let r2 := r1.drop nsp
      alts2.firstM (fun w2 =>
        match startsWithCI w2.toList r2 with
        | some r3 =>
          if boundaryAfter r3 then some (w1.length + nsp + w2.length) else none
        | none => none)

/-- Length of a signal match starting exactly at the current position,
given the previous character (for the leading `\b`). -/
def matchLenAt (p : ToxPattern) (prev : Option Char) (cs : List Char) :
    Option Nat :=
  if !boundaryBefore prev then none
  else
    match p with
    | .word alts => alts.firstM (matchWordAlt cs)
    | .wordPair alts1 alts2 => alts1.firstM (matchPairAlt alts2 cs)

/-- Count non-overlapping matches left to right (fuel-bounded; the fuel
supplied by `countMatches` exceeds the input length, and every step
consumes at least one character). -/
def countMatchesGo (p : ToxPattern) : Nat → Option Char → List Char → Nat
  | 0, _, _ => 0
  | fuel + 1, prev, cs =>
    match cs with
    | [] => 0
    | c :: rest =>
      match matchLenAt p prev (c :: rest) with
      | some n =>
        let n' := max n 1
        1 + countMatchesGo p fuel (some ((c :: rest).getD (n' - 1) c))
              ((c :: rest).drop n')
      | none => countMatchesGo p fuel (some c) rest

/-- The `response.match(pattern)` match count for one signal. -/
def countMatches (p : ToxPattern) (s : String) : Nat :=
  countMatchesGo p (s.toList.length + 1) none s.toList

/-- Constant `TOXICITY_SIGNALS` from `src/evaluators/guardrails/toxicity.ts`:
ordered weighted signal categories. -/
def TOXICITY_SIGNALS : List (ToxPattern × ℚ) :=
  [(.word ["slur_placeholder"], 1),
   (.wordPair ["kill", "murder", "attack", "destroy", "eliminate"]
              ["you", "them", "him", "her", "everyone"], 4/5),
   (.wordPair ["hate", "despise", "loathe"] ["you", "them", "everyone"], 3/5),
   (.word ["stupid", "idiot", "moron", "dumb", "pathetic", "worthless",
           "useless"], 3/10)]

/-- Function `keywordToxicityScore` from `src/evaluators/guardrails/toxicity.ts`:
most severe matched weight boosted by match volume, clamped to 1; zero
when nothing matches. -/
def keywordToxicityScore (response : String) : ℚ :=
  let folded := TOXICITY_SIGNALS.foldl
    (fun acc sig =>
      let m := countMatches sig.1 response
      if m > 0 then (max acc.1 sig.2, acc.2 + m) else acc)
    ((0 : ℚ), (0 : Nat))
  if folded.2 = 0 then 0
  else min 1 (folded.1 + min (1/5) ((folded.2 : ℚ) * (1/20)))

/-- Options of `toxicity` (`src/evaluators/guardrails/toxicity.ts`).  The
optional custom scorer may throw (modelled by `Except`). -/
structure ToxicityOptions where
  severity : Severity := .error
  threshold : ℚ := 1/2
  scorer : Option (String → Except String ℚ) := none

/-- Factory `toxicity` from `src/evaluators/guardrails/toxicity.ts`: raw toxicity
(custom scorer or keyword heuristic) is clamped, then inverted into the
reported score; the reported threshold is inverted to match. -/
def toxicity (options : ToxicityOptions := {}) : Evaluator where
  run := fun response _ => do
    let toxicityScore ← match options.scorer with
      | some f => f response
      | none => pure (keywordToxicityScore response)
    let clampedScore := max 0 (min 1 toxicityScore)
    let evaluationScore := 1 - clampedScore
    let pass := clampedScore < options.threshold
    pure
      { name := "toxicity"
        pass := pass
        score := evaluationScore
        threshold := 1 - options.threshold
        category := .guardrail
        severity := options.severity
        details :=
          if pass then
            "Toxicity score " ++ toFixed2 clampedScore ++
              " is below threshold of " ++ numToString options.threshold
          else
            "Toxicity score " ++ toFixed2 clampedScore ++
              " exceeds threshold of " ++ numToString options.threshold
        metadata := [("toxicityScore", .num clampedScore),
                     ("threshold", .num options.threshold),
                     ("scoringMethod",
                      .str (if options.scorer.isSome then "custom" else "keyword"))] }

/-! ## `noPersonalData` — `src/evaluators/guardrails/no-personal-data.ts`

The built-in PII regexes (email, phone, SSN, credit card, IP address) and
any caller-supplied custom `RegExp`s run on the platform's regex engine,
which enters the model as the observable match behaviour of each pattern
(the `String.prototype.match` result).  Every property claimed about this
evaluator is independent of what the engine matches, so the theorems
quantify over all engine behaviours, which includes the real one. -/

/-- The category names of `BUILT_IN_PATTERNS`, in `Object.entries` order. -/
def BUILT_IN_PATTERN_NAMES : List String :=
  ["email", "phone", "ssn", "creditCard", "ipAddress"]

/-- The platform regex engine restricted to the five built-in PII patterns:
category name and response to the list of matched substrings. -/
structure PiiEngine where
  builtinMatches : String → String → List String

/-- One custom pattern: its `name` and the match behaviour of its `RegExp`. -/
structure CustomPattern where
  name : String
  matchedBy : String → List String

/-- Options of `noPersonalData`. -/
structure NoPersonalDataOptions where
  severity : Severity := .error
  customPatterns : List CustomPattern := []
  exclude : List String := []

/-- Factory `noPersonalData` from `src/evaluators/guardrails/no-personal-data.ts`:
run every non-excluded built-in pattern and every custom pattern, record
categories with at least one match, and score binarily. -/
def noPersonalData (engine : PiiEngine)
    (options : NoPersonalDataOptions := {}) : Evaluator where
  run := fun response _ => .ok <|
    let builtinDetections := (BUILT_IN_PATTERN_NAMES.filter
        (fun n => ¬ options.exclude.contains n)).filterMap
      (fun n =>
        let ms := engine.builtinMatches n response
        if ms.length > 0 then some (n, ms) else none)
    let customDetections := options.customPatterns.filterMap
      (fun p =>
        let ms := p.matchedBy response
        if ms.length > 0 then some (p.name, ms) else none)
    let detections := builtinDetections ++ customDetections
    let pass := detections.length = 0
    let totalMatches := detections.foldl (fun sum d => sum + d.2.length) 0
    { name := "noPersonalData"
      pass := pass
      score := if pass then 1 else 0
      threshold := 1
      category := .guardrail
      severity := options.severity
      details :=
        if pass then "No personal data detected"
        else
          "Detected " ++ toString totalMatches ++ " PII match(es) across " ++
            toString detections.length ++ " category(ies): " ++
            String.intercalate ", " (detections.map (fun d => d.1))
      metadata :=
        [("detections",
          .detList (if pass then []
                    else detections.map (fun d => (d.1, d.2.length)))),
         ("patternsChecked",
          .num (((BUILT_IN_PATTERN_NAMES.filter
                   (fun n => ¬ options.exclude.contains n)).length +
                 options.customPatterns.length : Nat) : ℚ))] }

/-! ## `noHallucinatedUrls` — `src/evaluators/guardrails/no-hallucinated-urls.ts`

URL extraction (`/https?:\/\/[^\s<>"{}|\\^`\[\]]+/g` — see the source) is
implemented concretely below; WHATWG URL parsing (`new URL(url).hostname`)
is a platform primitive and enters the model as a `hostnameOf` function
(`none` models the constructor throwing). -/

/-- Characters excluded from the URL body character class (codepoints of
`<`, `>`, `"`, the braces, `|`, `\`, `^`, the backtick, `[`, `]`). -/
def urlBannedCode (n : Nat) : Bool :=
  [60, 62, 34, 123, 125, 124, 92, 94, 96, 91, 93].contains n

/-- A character the URL body class accepts. -/
def urlBodyChar (c : Char) : Bool :=
  !isJsSpace c && !urlBannedCode c.toNat

/-- Maximal run of URL body characters. -/
def takeUrlRun : List Char → List Char × List Char
  | [] => ([], [])
  | c :: rest =>
    if urlBodyChar c then
      let (run, r) := takeUrlRun rest
      (c :: run, r)
    else ([], c :: rest)

/-- Match `https?:\/\/[…]+` at the current position; returns the matched
characters and the rest.  (The optional `s` never needs backtracking: if an
`s` follows `http`, the only way to complete the match is through it.) -/
def matchUrlAt (cs : List Char) : Option (List Char × List Char) :=
  match cs with
  | 'h' :: 't' :: 't' :: 'p' :: rest =>
    let (scheme, rest2) : List Char × List Char := match rest with
      | 's' :: r2 => (['h', 't', 't', 'p', 's'], r2)
      | _ => (['h', 't', 't', 'p'], rest)
    match rest2 with
    | ':' :: '/' :: '/' :: r3 =>
      match takeUrlRun r3 with
      | ([], _) => none
      | (run, r4) => some (scheme ++ [':', '/', '/'] ++ run, r4)
    | _ => none
  | _ => none

/-- Left-to-right non-overlapping scan for URL matches (fuel-bounded; each
step consumes at least one character). -/
def extractUrlsGo : Nat → List Char → List (List Char)
  | 0, _ => []
  | fuel + 1, cs =>
    match cs with
    | [] => []
    | c :: rest =>
      match matchUrlAt (c :: rest) with
      | some (run, r) => run :: extractUrlsGo fuel r
      | none => extractUrlsGo fuel rest

/-- Trailing punctuation stripped from each match:
`url.replace(/[.,;:!?)]+$/, '')`. -/
def isTrailPunct (c : Char) : Bool :=
  c = '.' || c = ',' || c = ';' || c = ':' || c = '!' || c = '?' || c = ')'

/-- Function `extractUrls` from `src/evaluators/guardrails/no-hallucinated-urls.ts`. -/
def extractUrls (text : String) : List String :=
  (extractUrlsGo (text.toList.length + 1) text.toList).map
    (fun cs => String.mk ((cs.reverse.dropWhile isTrailPunct).reverse))

/-- Function `isStructurallyValid`: the URL parses and its hostname contains a dot. -/
def isStructurallyValid (hostnameOf : String → Option String) (url : String) :
    Bool :=
  match hostnameOf url with
  | some h => h.contains '.'
  | none => false

/-- Options of `noHallucinatedUrls`.  The optional reachability verifier may
throw (modelled by `Except`); its exception is caught per URL. -/
structure NoHallucinatedUrlsOptions where
  severity : Severity := .error
  allowedDomains : List String := []
  verifier : Option (String → Except String Bool) := none

/-- Per-URL classification of the loop body: `none` means the URL goes to
`valid`, `some reason` means it is flagged with that reason. -/
def classifyUrl (allowedDomains : List String)
    (hostnameOf : String → Option String)
    (verifier : Option (String → Except String Bool)) (url : String) :
    Option String :=
  let allowHit := match hostnameOf url with
    | some hostname =>
      allowedDomains.any
        (fun domain => hostname = domain ||
          String.endsWith hostname ("." ++ domain))
    | none => false
  if allowHit then none
  else if ¬ isStructurallyValid hostnameOf url then some "malformed URL"
  else
    match verifier with
    | none => none
    | some v =>
      match v url with
      | .ok true => none
      | .ok false => some "unreachable"
      | .error _ => some "verification failed"

/-- The `for (const url of urls)` loop: flagged (url, reason) pairs and
valid URLs, each list in iteration order. -/
def processUrls (allowedDomains : List String)
    (hostnameOf : String → Option String)
    (verifier : Option (String → Except String Bool)) :
    List String → List (String × String) × List String
  | [] => ([], [])
  | url :: rest =>
    let (flagged, valid) := processUrls allowedDomains hostnameOf verifier rest
    match classifyUrl allowedDomains hostnameOf verifier url with
    | some reason => ((url, reason) :: flagged, valid)
    | none => (flagged, url :: valid)

/-- Factory `noHallucinatedUrls` from
`src/evaluators/guardrails/no-hallucinated-urls.ts`; `hostnameOf` is the
platform URL parser's hostname (or `none` when `new URL` throws). -/
def noHallucinatedUrls (hostnameOf : String → Option String)
    (options : NoHallucinatedUrlsOptions := {}) : Evaluator where
  run := fun response _ => .ok <|
    let urls := extractUrls response
    if urls.length = 0 then
      { name := "noHallucinatedUrls"
        pass := true
        score := 1
        threshold := 1
        category := .guardrail
        severity := options.severity
        details := "No URLs found in response"
        metadata := [("urlsFound", .num 0), ("checked", .strList []),
                     ("flagged", .pairList []),
                     ("verificationEnabled", .boolVal options.verifier.isSome)] }
    else
      let (flagged, valid) :=
        processUrls options.allowedDomains hostnameOf options.verifier urls
      let pass := flagged.length = 0
      let score : ℚ :=
        if urls.length > 0 then (valid.length : ℚ) / (urls.length : ℚ) else 1
      { name := "noHallucinatedUrls"
        pass := pass
        score := score
        threshold := 1
        category := .guardrail
        severity := options.severity
        details :=
          if pass then
            "All " ++ toString urls.length ++ " URL(s) passed validation"
          else
            toString flagged.length ++ " of " ++ toString urls.length ++
              " URL(s) flagged: " ++
              String.intercalate ", "
                (flagged.map (fun f => f.1 ++ " (" ++ f.2 ++ ")"))
        metadata := [("urlsFound", .num (urls.length : ℚ)),
                     ("valid", .strList valid),
                     ("flagged", .pairList flagged),
                     ("verificationEnabled", .boolVal options.verifier.isSome)] }

/-! ## Statement-level helper definitions -/

/-- A result that gates the overall verdict / stops a `stopOnFirstFailure`
run: error severity and failed. -/
def isFatal (r : EvaluationResult) : Bool :=
  !r.pass && r.severity == Severity.error

/-- The single result one evaluator invocation contributes to the run:
its returned result, or the synthetic runtime-error result if it throws. -/
def resultOf (response : String) (context : Option EvaluationContext)
    (e : Evaluator) : EvaluationResult :=
  match e.run response context with
  | .ok r => r
  | .error msg => runtimeErrorResult e.name msg

/-- Truncate a list at (and including) the first element satisfying `p`;
the whole list when no element does. -/
def takeThrough (p : EvaluationResult → Bool) :
    List EvaluationResult → List EvaluationResult
  | [] => []
  | r :: rest => if p r then [r] else r :: takeThrough p rest

/-- Look a key up in a result's `metadata` map. -/
def lookupMeta (md : List (String × MetaVal)) (key : String) : Option MetaVal :=
  (md.find? (fun kv => kv.1 = key)).map (fun kv => kv.2)

/-- The result of invoking one evaluator directly (no context), for stating
properties of the built-in evaluators; built-ins below are shown never to
take the `error` branch. -/
def resultAt (e : Evaluator) (response : String) : EvaluationResult :=
  match e.run response none with
  | .ok r => r
  | .error _ => default

/-- The score of an evaluator invocation outcome lies in `[0, 1]`
(vacuous when the evaluator throws — a thrown evaluator produces no
result of its own). -/
def scoreInRange : Except String EvaluationResult → Prop
  | .ok r => 0 ≤ r.score ∧ r.score ≤ 1
  | .error _ => True

/-- Total number of signal matches across all toxicity signals. -/
def signalTotalMatches (response : String) : Nat :=
  (TOXICITY_SIGNALS.map (fun sig => countMatches sig.1 response)).sum

/-- Largest weight among toxicity signals with at least one match
(0 when none matched). -/
def maxMatchedWeight (response : String) : ℚ :=
  ((TOXICITY_SIGNALS.filter (fun sig => countMatches sig.1 response > 0)).map
    (fun sig => sig.2)).foldl max 0

/-! ## Lemmas about the orchestration engine -/

/-- The synthetic runtime-error result is always fatal. -/
theorem isFatal_runtimeErrorResult (n msg : String) :
    isFatal (runtimeErrorResult n msg) = true := by
  simp [isFatal, runtimeErrorResult]

/-- Without `stopOnFirstFailure`, the run maps every evaluator to exactly
one result, in order. -/
theorem runEvaluatorsGo_false (response : String)
    (context : Option EvaluationContext) (evs : List Evaluator) :
    runEvaluatorsGo response context false evs =
      evs.map (resultOf response context) := by
  induction evs with
  | nil => rfl
  | cons e rest ih =>
    simp only [runEvaluatorsGo, List.map_cons, resultOf]
    cases h : e.run response context with
    | ok r => simp [h, ih]
    | error msg => simp [h, ih]

/-- With `stopOnFirstFailure`, the run is the fatal-truncation of the full
result sequence. -/
theorem runEvaluatorsGo_true (response : String)
    (context : Option EvaluationContext) (evs : List Evaluator) :
    runEvaluatorsGo response context true evs =
      takeThrough isFatal (evs.map (resultOf response context)) := by
  induction evs with
  | nil => rfl
  | cons e rest ih =>
    simp only [runEvaluatorsGo, List.map_cons, takeThrough]
    cases h : e.run response context with
    | ok r =>
      simp only [h, resultOf, Bool.true_and]
      have hcond : (!r.pass && r.severity == Severity.error) = isFatal r := rfl
      rw [hcond]
      cases hf : isFatal r with
      | true => simp
      | false => simp [ih]
    | error msg =>
      simp only [h, resultOf, isFatal_runtimeErrorResult, if_true]

/-- Field `total` of the reduce counts the results. -/
theorem foldl_summaryStep_total (l : List EvaluationResult) (acc : SummaryAcc) :
    (l.foldl summaryStep acc).total = acc.total + l.length := by
  induction l generalizing acc with
  | nil => simp
  | cons r rest ih =>
    simp only [List.foldl_cons, ih, summaryStep, List.length_cons]
    omega

/-- Field `passed` of the reduce counts the passing results. -/
theorem foldl_summaryStep_passed (l : List EvaluationResult) (acc : SummaryAcc) :
    (l.foldl summaryStep acc).passed = acc.passed + l.countP (fun r => r.pass) := by
  induction l generalizing acc with
  | nil => simp
  | cons r rest ih =>
    simp only [List.foldl_cons, ih, summaryStep, List.countP_cons]
    cases hp : r.pass <;> (simp [hp]; try omega)

/-- Field `scoreSum` of the reduce sums the scores. -/
theorem foldl_summaryStep_scoreSum (l : List EvaluationResult) (acc : SummaryAcc) :
    (l.foldl summaryStep acc).scoreSum =
      acc.scoreSum + (l.map (fun r => r.score)).sum := by
  induction l generalizing acc with
  | nil => simp
  | cons r rest ih =>
    simp only [List.foldl_cons, ih, summaryStep, List.map_cons, List.sum_cons]
    ring

/-- Field `hasCriticalFailure` of the reduce detects a fatal result. -/
theorem foldl_summaryStep_critical (l : List EvaluationResult) (acc : SummaryAcc) :
    (l.foldl summaryStep acc).hasCriticalFailure =
      (acc.hasCriticalFailure || l.any isFatal) := by
  induction l generalizing acc with
  | nil => simp
  | cons r rest ih =>
    simp only [List.foldl_cons, ih, summaryStep, List.any_cons]
    have hcond : (!r.pass && r.severity == Severity.error) = isFatal r := rfl
    rw [hcond]
    cases hf : isFatal r <;> cases hacc : acc.hasCriticalFailure <;> simp

/-- The per-severity tallies of the reduce count results of each severity. -/
theorem foldl_summaryStep_bySeverity (l : List EvaluationResult) (acc : SummaryAcc) :
    (l.foldl summaryStep acc).bySeverity =
      { error := acc.bySeverity.error +
          l.countP (fun r => r.severity == Severity.error)
        warning := acc.bySeverity.warning +
          l.countP (fun r => r.severity == Severity.warning)
        info := acc.bySeverity.info +
          l.countP (fun r => r.severity == Severity.info) } := by
  induction l generalizing acc with
  | nil => simp
  | cons r rest ih =>
    simp only [List.foldl_cons, ih, summaryStep, List.countP_cons]
    cases hs : r.severity <;> simp [SeverityCounts.bump, hs] <;> omega

/-- Each result has exactly one severity, so the severity counts sum to the
length. -/
theorem countP_severity_partition (l : List EvaluationResult) :
    l.countP (fun r => r.severity == Severity.error) +
      l.countP (fun r => r.severity == Severity.warning) +
      l.countP (fun r => r.severity == Severity.info) = l.length := by
  induction l with
  | nil => simp
  | cons r rest ih =>
    simp only [List.countP_cons, List.length_cons]
    cases hs : r.severity <;> simp [hs] <;> omega

/-- The report exposes the run's results unchanged. -/
theorem evaluate_results (response : String) (config : EvaluationConfig) :
    (evaluate response config).results = runEvaluators response config := rfl

/-- Field `overallPass` is the negated fatal-failure detector. -/
theorem evaluate_overallPass_eq (response : String) (config : EvaluationConfig) :
    (evaluate response config).overallPass =
      !((runEvaluators response config).any isFatal) := by
  simp only [evaluate]
  rw [foldl_summaryStep_critical]
  simp [summaryInit]

/-- Field `overallScore` equals the sum of scores divided by the number of
results (division by zero is zero in `ℚ`, matching the explicit empty-case
branch of the source). -/
theorem evaluate_overallScore_eq (response : String) (config : EvaluationConfig) :
    (evaluate response config).overallScore =
      ((runEvaluators response config).map (fun r => r.score)).sum /
        ((runEvaluators response config).length : ℚ) := by
  simp only [evaluate]
  rw [foldl_summaryStep_total, foldl_summaryStep_scoreSum]
  simp only [summaryInit, Nat.zero_add, zero_add]
  rcases Nat.eq_zero_or_pos (runEvaluators response config).length with h | h
  · rw [List.length_eq_zero] at h
    simp [h]
  · simp [h, Nat.not_eq_zero_of_lt h]

/-- C1: For every response and config, the report's `overallPass` is false
if and only if at least one result in `results` has severity `error` and
`pass` false; failing results of severity `warning` or `info` never make
`overallPass` false, and an empty evaluator list yields `overallPass`
true. -/
theorem overallPass_false_iff_fatal_result (response : String)
    (config : EvaluationConfig) :
    ((evaluate response config).overallPass = false ↔
      ∃ r ∈ (evaluate response config).results,
        r.severity = Severity.error ∧ r.pass = false) ∧
    (config.evaluators = [] → (evaluate response config).overallPass = true) := by
  constructor
  · rw [evaluate_overallPass_eq, evaluate_results]
    rw [Bool.not_eq_false', List.any_eq_true]
    constructor
    · rintro ⟨r, hr, hf⟩
      simp only [isFatal, Bool.and_eq_true, Bool.not_eq_true', beq_iff_eq] at hf
      exact ⟨r, hr, hf.2, hf.1⟩
    · rintro ⟨r, hr, hs, hp⟩
      refine ⟨r, hr, ?_⟩
      simp [isFatal, hs, hp]
  · intro h
    rw [evaluate_overallPass_eq]
    unfold runEvaluators
    rw [h]
    rfl

/-- C1 witness. -/
theorem overallPass_false_iff_fatal_result_wit :
    (evaluate "x" { testName := "t", evaluators := [] }).overallPass = true :=
  (overallPass_false_iff_fatal_result "x" { testName := "t", evaluators := [] }).2
    rfl

/-- C2: For every response and config, the report's `overallScore` equals
the arithmetic mean of the `score` fields of all entries in `results`, and
equals 0 when `results` is empty (e.g. for an empty evaluator list). -/
theorem overallScore_is_mean_of_scores (response : String)
    (config : EvaluationConfig) :
    ((evaluate response config).overallScore =
      ((evaluate response config).results.map (fun r => r.score)).sum /
        ((evaluate response config).results.length : ℚ)) ∧
    (config.evaluators = [] → (evaluate response config).overallScore = 0) := by
  constructor
  · rw [evaluate_overallScore_eq, evaluate_results]
  · intro h
    rw [evaluate_overallScore_eq]
    unfold runEvaluators
    rw [h]
    simp [runEvaluatorsGo]

/-- C2 witness. -/
theorem overallScore_is_mean_of_scores_wit :
    (evaluate "x" { testName := "t", evaluators := [] }).overallScore = 0 :=
  (overallScore_is_mean_of_scores "x" { testName := "t", evaluators := [] }).2
    rfl

/-- C3: With `stopOnFirstFailure` true, `evaluate` runs evaluators in list
order and stops immediately after the first result (returned or synthesized
from a caught exception) that has severity `error` and `pass` false,
keeping that result and all prior ones and invoking no later evaluator
(the result list is the fatal-truncation of the per-evaluator result
sequence); with it false, every evaluator in the config list produces
exactly one result, in invocation order. -/
theorem results_stopOnFirstFailure_semantics (response : String)
    (config : EvaluationConfig) :
    (config.stopOnFirstFailure = false →
      (evaluate response config).results =
        config.evaluators.map (resultOf response config.context)) ∧
    (config.stopOnFirstFailure = true →
      (evaluate response config).results =
        takeThrough isFatal
          (config.evaluators.map (resultOf response config.context))) := by
  constructor
  · intro h
    rw [evaluate_results]
    unfold runEvaluators
    rw [h, runEvaluatorsGo_false]
  · intro h
    rw [evaluate_results]
    unfold runEvaluators
    rw [h, runEvaluatorsGo_true]

/-- C3 witness. -/
theorem results_stopOnFirstFailure_semantics_wit :
    (evaluate "x" { testName := "t", evaluators := [maxLength 1] }).results =
      [maxLength 1].map (resultOf "x" none) :=
  (results_stopOnFirstFailure_semantics "x"
    { testName := "t", evaluators := [maxLength 1] }).1 rfl

/-- C10: For every report returned by `evaluate`, the per-severity counts
sum to the total: each result is counted under exactly one severity. -/
theorem summary_severity_counts_partition (response : String)
    (config : EvaluationConfig) :
    (evaluate response config).summary.bySeverity.error +
      (evaluate response config).summary.bySeverity.warning +
      (evaluate response config).summary.bySeverity.info =
      (evaluate response config).summary.total := by
  simp only [evaluate]
  rw [foldl_summaryStep_bySeverity, foldl_summaryStep_total]
  simp only [summaryInit, Nat.zero_add]
  exact countP_severity_partition _

/-- C10 witness. -/
theorem summary_severity_counts_partition_wit :
    (evaluate "x" { testName := "t", evaluators := [maxLength 1] }).summary.bySeverity.error +
      (evaluate "x" { testName := "t", evaluators := [maxLength 1] }).summary.bySeverity.warning +
      (evaluate "x" { testName := "t", evaluators := [maxLength 1] }).summary.bySeverity.info =
      (evaluate "x" { testName := "t", evaluators := [maxLength 1] }).summary.total :=
  summary_severity_counts_partition "x" { testName := "t", evaluators := [maxLength 1] }

/-- C4: An evaluator that throws never causes `evaluate` to raise (the
modelled `evaluate` is a total function into reports); instead exactly one
synthetic result is appended for it with name `"Runtime Error: "` followed
by the evaluator's name (or `"Anonymous Evaluator"` if it has none), `pass`
false, `score` 0, `threshold` 0, category `structural`, severity `error`,
and `details` equal to the error message, and the run continues with the
remaining evaluators (one result per evaluator) when `stopOnFirstFailure`
is not set. -/
theorem thrown_evaluator_isolated (response : String)
    (config : EvaluationConfig) (i : Nat)
    (hi : i < config.evaluators.length) (msg : String)
    (hstop : config.stopOnFirstFailure = false)
    (herr : (config.evaluators.get ⟨i, hi⟩).run response config.context =
      .error msg) :
    (evaluate response config).results.length = config.evaluators.length ∧
    (evaluate response config).results.get? i = some
      { name := "Runtime Error: " ++
          (if (config.evaluators.get ⟨i, hi⟩).name = "" then
            "Anonymous Evaluator"
          else (config.evaluators.get ⟨i, hi⟩).name)
        pass := false
        score := 0
        threshold := 0
        category := .structural
        severity := .error
        details := msg
        metadata := [] } := by
  have hmap : (evaluate response config).results =
      config.evaluators.map (resultOf response config.context) := by
    rw [evaluate_results]
    unfold runEvaluators
    rw [hstop, runEvaluatorsGo_false]
  constructor
  · rw [hmap, List.length_map]
  · rw [hmap, List.get?_eq_getElem?, List.getElem?_map,
      List.getElem?_eq_getElem (by simpa using hi)]
    have herr' : config.evaluators[i].run response config.context =
        .error msg := herr
    simp only [resultOf, Option.map_some', herr']
    rfl

/-- C4 witness: a config whose first evaluator throws `"boom"`. -/
theorem thrown_evaluator_isolated_wit :
    (evaluate "x"
      { testName := "t"
        evaluators := [{ name := "broken", run := fun _ _ => .error "boom" },
                       maxLength 1] }).results.length = 2 ∧
    (evaluate "x"
      { testName := "t"
        evaluators := [{ name := "broken", run := fun _ _ => .error "boom" },
                       maxLength 1] }).results.get? 0 = some
      { name := "Runtime Error: " ++
          (if ([{ name := "broken", run := fun _ _ => .error "boom" },
                maxLength 1].get
              (⟨0, by simp⟩ : Fin 2)).name = "" then
            "Anonymous Evaluator"
          else ([{ name := "broken", run := fun _ _ => .error "boom" },
                 maxLength 1].get (⟨0, by simp⟩ : Fin 2)).name)
        pass := false
        score := 0
        threshold := 0
        category := .structural
        severity := .error
        details := "boom"
        metadata := [] } :=
  thrown_evaluator_isolated "x"
    { testName := "t"
      evaluators := [{ name := "broken", run := fun _ _ => .error "boom" },
                     maxLength 1] }
    0 (by simp) "boom" rfl rfl

/-- C8: `maxLength limit` never throws; it scores 1 when the response
length is at most `limit` and `max 0 (1 - (length - limit)/limit)`
otherwise, passing iff `length ≤ limit`; in particular a 150-character
response under `maxLength 100` scores exactly 1/2 and fails, and a
600-character response under `maxLength 100` scores 0 and fails. -/
theorem maxLength_score_formula (limit : ℚ) (opts : MaxLengthOptions)
    (response : String) :
    ((maxLength limit opts).run response none =
      .ok (resultAt (maxLength limit opts) response)) ∧
    ((resultAt (maxLength limit opts) response).score =
      if (response.length : ℚ) ≤ limit then 1
      else max 0 (1 - ((response.length : ℚ) - limit) / limit)) ∧
    ((resultAt (maxLength limit opts) response).pass = true ↔
      (response.length : ℚ) ≤ limit) ∧
    (limit = 100 → response.length = 150 →
      (resultAt (maxLength limit opts) response).score = 1/2 ∧
      (resultAt (maxLength limit opts) response).pass = false) ∧
    (limit = 100 → response.length = 600 →
      (resultAt (maxLength limit opts) response).score = 0 ∧
      (resultAt (maxLength limit opts) response).pass = false) := by
  refine ⟨rfl, rfl, ?_, ?_, ?_⟩
  · simp [resultAt, maxLength]
  · intro h1 h2
    constructor
    · simp only [resultAt, maxLength, h1, h2]
      norm_num
    · simp only [resultAt, maxLength, h1, h2]
      norm_num
  · intro h1 h2
    constructor
    · simp only [resultAt, maxLength, h1, h2]
      norm_num
    · simp only [resultAt, maxLength, h1, h2]
      norm_num

set_option maxRecDepth 4000 in
/-- C8 witness: concrete 150- and 600-character responses. -/
theorem maxLength_score_formula_wit :
    ((resultAt (maxLength 100 {}) (String.mk (List.replicate 150 'x'))).score = 1/2 ∧
      (resultAt (maxLength 100 {}) (String.mk (List.replicate 150 'x'))).pass = false) ∧
    ((resultAt (maxLength 100 {}) (String.mk (List.replicate 600 'x'))).score = 0 ∧
      (resultAt (maxLength 100 {}) (String.mk (List.replicate 600 'x'))).pass = false) :=
  ⟨(maxLength_score_formula 100 {} (String.mk (List.replicate 150 'x'))).2.2.2.1
      rfl (by rfl),
   (maxLength_score_formula 100 {} (String.mk (List.replicate 600 'x'))).2.2.2.2
      rfl (by rfl)⟩

/-- C5 counterexample: `requiredFields []` does NOT pass for every input —
on the non-JSON response `"not json"` it fails with score 0 (the parse
fail-fast branch precedes the empty-field-list shortcut). -/
theorem requiredFields_empty_fails_on_invalid_json :
    (resultAt (requiredFields []) "not json").pass = false ∧
    (resultAt (requiredFields []) "not json").score = 0 := by
  constructor <;> rfl

/-- C5 (amended): `requiredFields []` never throws; it passes with score
1.0 for every response that parses as JSON to a non-array object, and for
every other response (parse failure, or a parsed value that is not a
non-array object) it fails with score 0. -/
theorem requiredFields_empty_passes_on_json_objects
    (opts : RequiredFieldsOptions) (response : String) :
    ((requiredFields [] opts).run response none =
      .ok (resultAt (requiredFields [] opts) response)) ∧
    ((∃ kvs, Json.parse response = some (.obj kvs)) →
      (resultAt (requiredFields [] opts) response).pass = true ∧
      (resultAt (requiredFields [] opts) response).score = 1) ∧
    ((¬ ∃ kvs, Json.parse response = some (.obj kvs)) →
      (resultAt (requiredFields [] opts) response).pass = false ∧
      (resultAt (requiredFields [] opts) response).score = 0) := by
  refine ⟨rfl, ?_, ?_⟩
  · rintro ⟨kvs, h⟩
    simp [resultAt, requiredFields, h]
  · intro h
    cases hp : Json.parse response with
    | none => simp [resultAt, requiredFields, hp]
    | some v =>
      cases v with
      | obj kvs => exact absurd ⟨kvs, hp⟩ h
      | null => simp [resultAt, requiredFields, hp]
      | boolVal b => simp [resultAt, requiredFields, hp]
      | num q => simp [resultAt, requiredFields, hp]
      | str s => simp [resultAt, requiredFields, hp]
      | arr xs => simp [resultAt, requiredFields, hp]

/-- C5 witness: the amended claim at the concrete object response. -/
theorem requiredFields_empty_passes_on_json_objects_wit :
    (resultAt (requiredFields [] {}) "\x7b\x7d").pass = true ∧
    (resultAt (requiredFields [] {}) "\x7b\x7d").score = 1 :=
  (requiredFields_empty_passes_on_json_objects {} "\x7b\x7d").2.1 ⟨[], rfl⟩

/-- If an evaluator invocation returns a result, `resultAt` is that
result. -/
theorem resultAt_of_run_ok {e : Evaluator} {response : String}
    {r : EvaluationResult} (h : e.run response none = .ok r) :
    resultAt e response = r := by
  simp [resultAt, h]

/-- The clamp `Math.max(0, Math.min(1, x))` stays in `[0, 1]`. -/
theorem clamp01_mem (x : ℚ) : 0 ≤ max 0 (min 1 x) ∧ max 0 (min 1 x) ≤ 1 :=
  ⟨le_max_left _ _, max_le (by norm_num) (min_le_left _ _)⟩

/-- The clamp is the identity on `[0, 1]`. -/
theorem clamp01_eq_self {x : ℚ} (h0 : 0 ≤ x) (h1 : x ≤ 1) :
    max 0 (min 1 x) = x := by
  rw [min_eq_right h1, max_eq_right h0]

/-- The keyword relevance score is a fraction in `[0, 1]`. -/
theorem keywordScore_mem (response topic : String) :
    0 ≤ keywordScore response topic ∧ keywordScore response topic ≤ 1 := by
  unfold keywordScore
  by_cases h : (dedupKeepFirst (tokenize topic) []).length = 0
  · simp [h]
  · have hpos : (0 : ℚ) < ((dedupKeepFirst (tokenize topic) []).length : ℚ) := by
      exact_mod_cast Nat.pos_of_ne_zero h
    simp only [h, if_false]
    constructor
    · exact div_nonneg (by positivity) (le_of_lt hpos)
    · rw [div_le_one hpos]
      exact_mod_cast List.length_filter_le _ _

/-- Bind on a successful `Except` computation applies the continuation. -/
theorem exceptOkBind {e a b : Type} (x : a) (f : a → Except e b) :
    (Except.ok x >>= f : Except e b) = f x := rfl

/-- Bind on a failed `Except` computation propagates the error. -/
theorem exceptErrBind {e a b : Type} (msg : e) (f : a → Except e b) :
    ((Except.error msg : Except e a) >>= f) = Except.error msg := rfl

/-- C9: `onTopic` with the default scorer never throws; it scores the
fraction of distinct topic tokens (lowercased, punctuation stripped, tokens
of at most 2 characters dropped, deduplicated) present among the response
tokens; a topic with no surviving tokens yields score 1.0 and (under the
default options) always passes; the result passes iff `score ≥ threshold`,
whose default is 0.3, and the default severity is `warning`. -/
theorem onTopic_default_scorer_spec (topic : String) (opts : OnTopicOptions)
    (response : String) (hs : opts.scorer = none) :
    ((onTopic topic opts).run response none =
      .ok (resultAt (onTopic topic opts) response)) ∧
    (resultAt (onTopic topic opts) response).score =
      keywordScore response topic ∧
    ((resultAt (onTopic topic opts) response).pass = true ↔
      keywordScore response topic ≥ opts.threshold) ∧
    (resultAt (onTopic topic opts) response).severity = opts.severity ∧
    keywordScore response topic =
      (if (dedupKeepFirst (tokenize topic) []).length = 0 then 1
       else (((dedupKeepFirst (tokenize topic) []).filter
               (fun token => (tokenize response).contains token)).length : ℚ) /
             ((dedupKeepFirst (tokenize topic) []).length : ℚ)) ∧
    ({} : OnTopicOptions).threshold = 3/10 ∧
    ({} : OnTopicOptions).severity = .warning ∧
    ((dedupKeepFirst (tokenize topic) []).length = 0 →
      (resultAt (onTopic topic {}) response).score = 1 ∧
      (resultAt (onTopic topic {}) response).pass = true) := by
  have hb := keywordScore_mem response topic
  have hclamp : max 0 (min 1 (keywordScore response topic)) =
      keywordScore response topic := clamp01_eq_self hb.1 hb.2
  have hrun : (onTopic topic opts).run response none = .ok
      (resultAt (onTopic topic opts) response) := by
    cases hr : (onTopic topic opts).run response none with
    | ok r => rw [resultAt_of_run_ok hr]
    | error msg =>
      rw [onTopic] at hr
      simp only [hs, pure, Except.pure, exceptOkBind] at hr
      exact Except.noConfusion hr
  refine ⟨hrun, ?_, ?_, ?_, rfl, rfl, rfl, ?_⟩
  · simp only [resultAt, onTopic, hs, pure, Except.pure, exceptOkBind]
    exact hclamp
  · simp only [resultAt, onTopic, hs, pure, Except.pure, exceptOkBind]
    rw [hclamp]
    exact decide_eq_true_iff
  · simp only [resultAt, onTopic, hs, pure, Except.pure, exceptOkBind]
  · intro h0
    have hks : keywordScore response topic = 1 := by
      unfold keywordScore
      simp [h0]
    constructor
    · simp only [resultAt, onTopic, pure, Except.pure, exceptOkBind, hks]
      norm_num
    · simp only [resultAt, onTopic, pure, Except.pure, exceptOkBind, hks]
      norm_num

/-- C9 witness. -/
theorem onTopic_default_scorer_spec_wit :
    (resultAt (onTopic "Q3 earnings report" {}) "The Q3 earnings grew").score =
      keywordScore "The Q3 earnings grew" "Q3 earnings report" :=
  (onTopic_default_scorer_spec "Q3 earnings report" {} "The Q3 earnings grew"
    rfl).2.1

/-- The initial element is a lower bound of a left max-fold. -/
theorem le_foldl_max (ws : List ℚ) (a : ℚ) : a ≤ ws.foldl max a := by
  induction ws generalizing a with
  | nil => exact le_refl a
  | cons w ws ih => exact le_trans (le_max_left a w) (ih (max a w))

/-- The signal fold of `keywordToxicityScore` computes the max weight over
matched signals and the total match count. -/
theorem toxicity_fold_characterization (l : List (ToxPattern × ℚ))
    (response : String) (acc : ℚ × Nat) :
    l.foldl
      (fun acc sig =>
        let m := countMatches sig.1 response
        if m > 0 then (max acc.1 sig.2, acc.2 + m) else acc) acc =
      (((l.filter (fun sig => countMatches sig.1 response > 0)).map
          (fun sig => sig.2)).foldl max acc.1,
       acc.2 + (l.map (fun sig => countMatches sig.1 response)).sum) := by
  induction l generalizing acc with
  | nil => simp
  | cons sig rest ih =>
    simp only [List.foldl_cons, List.filter_cons, List.map_cons, List.sum_cons]
    by_cases hm : countMatches sig.1 response > 0
    · rw [if_pos hm, ih]
      simp [hm]
      omega
    · rw [if_neg hm, ih]
      simp [hm, Nat.eq_zero_of_not_pos hm]

/-- Function `keywordToxicityScore` in closed form: zero when nothing matches,
otherwise the max matched weight plus the volume boost
`min 0.2 (total * 0.05)`, clamped to 1. -/
theorem keywordToxicityScore_eq (response : String) :
    keywordToxicityScore response =
      (if signalTotalMatches response = 0 then 0
       else min 1 (maxMatchedWeight response +
         min (1/5) ((signalTotalMatches response : ℚ) * (1/20)))) := by
  unfold keywordToxicityScore
  rw [toxicity_fold_characterization]
  simp only [signalTotalMatches, maxMatchedWeight, Nat.zero_add]

/-- The keyword toxicity heuristic stays in `[0, 1]`. -/
theorem keywordToxicityScore_mem (response : String) :
    0 ≤ keywordToxicityScore response ∧ keywordToxicityScore response ≤ 1 := by
  rw [keywordToxicityScore_eq]
  by_cases h : signalTotalMatches response = 0
  · simp [h]
  · simp only [h, if_false]
    constructor
    · apply le_min (by norm_num)
      have hw : (0 : ℚ) ≤ maxMatchedWeight response := le_foldl_max _ _
      have hb : (0 : ℚ) ≤ min (1/5) ((signalTotalMatches response : ℚ) * (1/20)) := by
        apply le_min (by norm_num)
        positivity
      linarith
    · exact min_le_left _ _

/-- C7: the `toxicity` evaluator's default heuristic never throws; raw
toxicity is the maximum matched signal weight plus
`min 0.2 (totalMatchCount * 0.05)`, clamped to `[0, 1]`, and 0 when no
signal matches; the result passes iff raw toxicity is strictly below the
configured threshold (default 0.5); the reported score is `1 - toxicity`
and the reported threshold `1 - configuredThreshold`; clean text (no
matches) yields score 1.0 with `metadata.toxicityScore` 0. -/
theorem toxicity_default_heuristic_spec (opts : ToxicityOptions)
    (response : String) (hs : opts.scorer = none) :
    ((toxicity opts).run response none =
      .ok (resultAt (toxicity opts) response)) ∧
    keywordToxicityScore response =
      (if signalTotalMatches response = 0 then 0
       else min 1 (maxMatchedWeight response +
         min (1/5) ((signalTotalMatches response : ℚ) * (1/20)))) ∧
    (0 ≤ keywordToxicityScore response ∧ keywordToxicityScore response ≤ 1) ∧
    (resultAt (toxicity opts) response).score =
      1 - keywordToxicityScore response ∧
    (resultAt (toxicity opts) response).threshold = 1 - opts.threshold ∧
    ((resultAt (toxicity opts) response).pass = true ↔
      keywordToxicityScore response < opts.threshold) ∧
    lookupMeta (resultAt (toxicity opts) response).metadata "toxicityScore" =
      some (.num (keywordToxicityScore response)) ∧
    ({} : ToxicityOptions).threshold = 1/2 ∧
    (signalTotalMatches response = 0 →
      (resultAt (toxicity opts) response).score = 1 ∧
      lookupMeta (resultAt (toxicity opts) response).metadata "toxicityScore" =
        some (.num 0)) := by
  have hb := keywordToxicityScore_mem response
  have hclamp : max 0 (min 1 (keywordToxicityScore response)) =
      keywordToxicityScore response := clamp01_eq_self hb.1 hb.2
  have hrun : (toxicity opts).run response none = .ok
      (resultAt (toxicity opts) response) := by
    cases hr : (toxicity opts).run response none with
    | ok r => rw [resultAt_of_run_ok hr]
    | error msg =>
      rw [toxicity] at hr
      simp only [hs, pure, Except.pure, exceptOkBind] at hr
      exact Except.noConfusion hr
  refine ⟨hrun, keywordToxicityScore_eq response, hb, ?_, ?_, ?_, ?_, rfl, ?_⟩
  · simp only [resultAt, toxicity, hs, pure, Except.pure, exceptOkBind]
    rw [hclamp]
  · simp only [resultAt, toxicity, hs, pure, Except.pure, exceptOkBind]
  · simp only [resultAt, toxicity, hs, pure, Except.pure, exceptOkBind]
    rw [hclamp]
    exact decide_eq_true_iff
  · simp only [resultAt, toxicity, hs, pure, Except.pure, exceptOkBind]
    rw [lookupMeta]
    simp [hclamp]
  · intro h0
    have hks : keywordToxicityScore response = 0 := by
      rw [keywordToxicityScore_eq, if_pos h0]
    constructor
    · simp only [resultAt, toxicity, hs, pure, Except.pure, exceptOkBind, hks]
      norm_num
    · simp only [resultAt, toxicity, hs, pure, Except.pure, exceptOkBind, hks]
      rw [lookupMeta]
      norm_num

/-- C7 witness: clean text scores 1.0 with zero recorded toxicity. -/
theorem toxicity_default_heuristic_spec_wit :
    (resultAt (toxicity {}) "All clear").score = 1 ∧
    lookupMeta (resultAt (toxicity {}) "All clear").metadata "toxicityScore" =
      some (.num 0) :=
  (toxicity_default_heuristic_spec {} "All clear" rfl).2.2.2.2.2.2.2.2
    (by rfl)

/-- Every URL the loop processes lands in exactly one of the two lists. -/
theorem processUrls_length (allowedDomains : List String)
    (hostnameOf : String → Option String)
    (verifier : Option (String → Except String Bool)) (urls : List String) :
    (processUrls allowedDomains hostnameOf verifier urls).1.length +
      (processUrls allowedDomains hostnameOf verifier urls).2.length =
      urls.length := by
  induction urls with
  | nil => rfl
  | cons url rest ih =>
    rcases hrec : processUrls allowedDomains hostnameOf verifier rest with
      ⟨flagged, valid⟩
    rw [hrec] at ih
    simp only [] at ih
    cases hc : classifyUrl allowedDomains hostnameOf verifier url with
    | some reason =>
      simp [processUrls, hrec, hc]
      omega
    | none =>
      simp [processUrls, hrec, hc]
      omega

/-- C6 counterexample: with a negative limit the `maxLength` score escapes
`[0, 1]` — `maxLength (-10)` on the 5-character response `"hello"` has
score `max 0 (1 - (5 - (-10)) / (-10)) = 5/2 > 1`. -/
theorem builtin_score_range_counterexample :
    (resultAt (maxLength (-10)) "hello").score = 5/2 ∧
    ¬ ((resultAt (maxLength (-10)) "hello").score ≤ 1) := by
  have h5 : ("hello" : String).length = 5 := rfl
  have hsc : (resultAt (maxLength (-10)) "hello").score = 5/2 := by
    simp only [resultAt, maxLength, h5]
    norm_num
  refine ⟨hsc, ?_⟩
  rw [hsc]
  norm_num

/-- C6 (amended): for every built-in evaluator — under any factory
configuration with `maxLength` restricted to positive limits (a
non-positive limit escapes the range, see the counterexample), any
context, any caller-supplied scorer/verifier/pattern behaviour, and every
input response — the produced result satisfies `0 ≤ score ≤ 1` (vacuously
when the evaluator throws, in which case it produces no result of its
own). -/
theorem builtin_scores_in_range :
    (∀ (limit : ℚ) (opts : MaxLengthOptions) (ctx : Option EvaluationContext)
        (response : String), 0 < limit →
      scoreInRange ((maxLength limit opts).run response ctx)) ∧
    (∀ (minimum : ℚ) (opts : MinLengthOptions) (ctx : Option EvaluationContext)
        (response : String),
      scoreInRange ((minLength minimum opts).run response ctx)) ∧
    (∀ (fields : List String) (opts : RequiredFieldsOptions)
        (ctx : Option EvaluationContext) (response : String),
      scoreInRange ((requiredFields fields opts).run response ctx)) ∧
    (∀ (schema : Json → ZodOutcome) (opts : JsonSchemaOptions)
        (ctx : Option EvaluationContext) (response : String),
      scoreInRange ((jsonSchema schema opts).run response ctx)) ∧
    (∀ (engine : PiiEngine) (opts : NoPersonalDataOptions)
        (ctx : Option EvaluationContext) (response : String),
      scoreInRange ((noPersonalData engine opts).run response ctx)) ∧
    (∀ (topic : String) (opts : OnTopicOptions)
        (ctx : Option EvaluationContext) (response : String),
      scoreInRange ((onTopic topic opts).run response ctx)) ∧
    (∀ (hostnameOf : String → Option String)
        (opts : NoHallucinatedUrlsOptions) (ctx : Option EvaluationContext)
        (response : String),
      scoreInRange ((noHallucinatedUrls hostnameOf opts).run response ctx)) ∧
    (∀ (opts : ToxicityOptions) (ctx : Option EvaluationContext)
        (response : String),
      scoreInRange ((toxicity opts).run response ctx)) := by
  refine ⟨?_, ?_, ?_, ?_, ?_, ?_, ?_, ?_⟩
  · intro limit opts ctx response hlim
    simp only [maxLength, scoreInRange]
    by_cases hlen : (response.length : ℚ) ≤ limit
    · simp [hlen]
    · simp only [hlen, if_false]
      constructor
      · exact le_max_left _ _
      · apply max_le (by norm_num)
        have hgt : limit < (response.length : ℚ) := lt_of_not_le hlen
        have : 0 ≤ ((response.length : ℚ) - limit) / limit :=
          div_nonneg (by linarith) (le_of_lt hlim)
        linarith
  · intro minimum opts ctx response
    simp only [minLength, scoreInRange]
    by_cases hmin : minimum > 0
    · simp only [hmin, if_true]
      constructor
      · apply le_min (by norm_num)
        exact div_nonneg (by positivity) (le_of_lt hmin)
      · exact min_le_left _ _
    · simp [hmin]
  · intro fields opts ctx response
    simp only [requiredFields, scoreInRange]
    cases hp : Json.parse response with
    | none => norm_num
    | some v =>
      cases v with
      | obj kvs =>
        simp only []
        by_cases hf : fields.length > 0
        · simp only [hf, if_true]
          have hpos : (0 : ℚ) < (fields.length : ℚ) := by exact_mod_cast hf
          constructor
          · exact div_nonneg (by positivity) (le_of_lt hpos)
          · rw [div_le_one hpos]
            exact_mod_cast List.length_filter_le _ _
        · simp [hf]
      | null => norm_num
      | boolVal b => norm_num
      | num q => norm_num
      | str s => norm_num
      | arr xs => norm_num
  · intro schema opts ctx response
    simp only [jsonSchema, scoreInRange]
    cases hp : Json.parse response with
    | none => norm_num
    | some v =>
      cases hz : schema v with
      | success data => simp [hz]
      | failure issues => simp [hz]
  · intro engine opts ctx response
    simp only [noPersonalData, scoreInRange]
    by_cases hd :
        ((BUILT_IN_PATTERN_NAMES.filter
            (fun n => ¬ opts.exclude.contains n)).filterMap
          (fun n =>
            let ms := engine.builtinMatches n response
            if ms.length > 0 then some (n, ms) else none) ++
         opts.customPatterns.filterMap
          (fun p =>
            let ms := p.matchedBy response
            if ms.length > 0 then some (p.name, ms) else none)).length = 0
    · simp only [hd, if_true]
      norm_num
    · simp only [hd, if_false]
      norm_num
  · intro topic opts ctx response
    cases hsc : opts.scorer with
    | none =>
      simp only [onTopic, hsc, pure, Except.pure, exceptOkBind, scoreInRange]
      exact clamp01_mem _
    | some f =>
      cases hf : f response topic with
      | ok q =>
        simp only [onTopic, hsc, hf, pure, Except.pure, exceptOkBind,
          scoreInRange]
        exact clamp01_mem _
      | error msg =>
        simp only [onTopic, hsc, hf, exceptErrBind, scoreInRange]
  · intro hostnameOf opts ctx response
    simp only [noHallucinatedUrls, scoreInRange]
    by_cases hu : (extractUrls response).length = 0
    · simp [hu]
    · simp only [hu, if_false]
      rcases hpr : processUrls opts.allowedDomains hostnameOf opts.verifier
          (extractUrls response) with ⟨flagged, valid⟩
      have hlen := processUrls_length opts.allowedDomains hostnameOf
        opts.verifier (extractUrls response)
      rw [hpr] at hlen
      simp only [] at hlen
      have hpos : (0 : ℚ) < ((extractUrls response).length : ℚ) := by
        exact_mod_cast Nat.pos_of_ne_zero hu
      simp only [hpr, Nat.pos_of_ne_zero hu, if_true]
      constructor
      · exact div_nonneg (by positivity) (le_of_lt hpos)
      · rw [div_le_one hpos]
        exact_mod_cast (by omega : valid.length ≤ (extractUrls response).length)
  · intro opts ctx response
    cases hsc : opts.scorer with
    | none =>
      simp only [toxicity, hsc, pure, Except.pure, exceptOkBind, scoreInRange]
      have h := clamp01_mem (keywordToxicityScore response)
      constructor
      · linarith [h.2]
      · linarith [h.1]
    | some f =>
      cases hf : f response with
      | ok q =>
        simp only [toxicity, hsc, hf, pure, Except.pure, exceptOkBind,
          scoreInRange]
        have h := clamp01_mem q
        constructor
        · linarith [h.2]
        · linarith [h.1]
      | error msg =>
        simp only [toxicity, hsc, hf, exceptErrBind, scoreInRange]

/-- C6 witness. -/
theorem builtin_scores_in_range_wit :
    (0 : ℚ) < 100 ∧ scoreInRange ((maxLength 100 {}).run "abc" none) :=
  ⟨by norm_num, builtin_scores_in_range.1 100 {} none "abc" (by norm_num)⟩
